import Mathlib

/-!
# Verification of the stm32-delay timer driver

Shallow embedding of `src/lib.rs`: the `TimerExt` implementation for TIM1
(enable/disable/calc_pre/delay) and the generic `TimerDelay` controller with
its `DelayMs`/`DelayUs` implementations for `u8`, `u16` and `u32`.

Machine integers (`u32`, `u16`) are modelled as `Nat` with explicit `% 2 ^ 32`
resp. `% 2 ^ 16` where Rust wrapping arithmetic or an `as` cast occurs.
Side-effecting register accesses are modelled as explicit effect traces; the
controller methods return the (unchanged or constructed) controller value
together with the trace of adapter calls they issue.
-/

set_option autoImplicit false

/-- Model of the part of `stm32f4xx_hal::rcc::Clocks` read by `calc_pre`:
`ppre2()` (the APB2 bus prescaler value, a `u8`) and `pclk2().0`
(the APB2 clock frequency in Hz, a `u32`). -/
structure Clocks where
  ppre2 : Nat
  pclk2 : Nat
deriving DecidableEq, Repr

/-- The two RCC registers touched by the TIM1 `enable`/`disable`
implementations. -/
inductive RccReg where
  | apb2enr
  | apb2rstr
deriving DecidableEq, Repr

/-- Register-level effects issued by the TIM1 `TimerExt` implementation.
Each constructor corresponds to one register access in `src/lib.rs`:

* `setBit reg i` — `bb::set(&rcc.reg, i)`
* `clearBit reg i` — `bb::clear(&rcc.reg, i)`
* `setDirDown` — `self.cr1.modify(|_, w| w.dir().set_bit())` (down-counting)
* `writePsc v` — `self.psc.write(|w| w.psc().bits(v))`
* `clearUif` — `self.sr.write(|w| w.uif().set_bit())`, the source's
  "Clear the update flag" step
* `writeCnt v` — `self.cnt.write(|w| w.cnt().bits(v))`
* `startCounter` — `self.cr1.modify(|_, w| w.cen().set_bit())`
* `waitUif` — the busy-wait loop `while !self.sr.read().uif().bit_is_set() {}`
* `stopCounter` — `self.cr1.modify(|_, w| w.cen().clear_bit())` -/
inductive RegEffect where
  | setBit (reg : RccReg) (bit : Nat)
  | clearBit (reg : RccReg) (bit : Nat)
  | setDirDown
  | writePsc (v : Nat)
  | clearUif
  | writeCnt (v : Nat)
  | startCounter
  | waitUif
  | stopCounter
deriving DecidableEq, Repr

/-- `TimerExt::enable for TIM1` (src/lib.rs lines 40-48): enable the
peripheral clock, pulse the reset bit, select down-counting mode. -/
def TIM1_enable : List RegEffect :=
  [RegEffect.setBit RccReg.apb2enr 0,
   RegEffect.setBit RccReg.apb2rstr 0,
   RegEffect.clearBit RccReg.apb2rstr 0,
   RegEffect.setDirDown]

/-- `TimerExt::disable for TIM1` (src/lib.rs lines 50-56): pulse the reset
bit, then gate the peripheral clock off. -/
def TIM1_disable : List RegEffect :=
  [RegEffect.setBit RccReg.apb2rstr 0,
   RegEffect.clearBit RccReg.apb2rstr 0,
   RegEffect.clearBit RccReg.apb2enr 0]

/-- `TimerExt::calc_pre for TIM1` (src/lib.rs lines 58-66), with `u32`
arithmetic modelled by `% 2 ^ 32`:

```rust
let pclk_mul = if clocks.ppre2() == 1 { 1 } else { 2 };
let freq_in = clocks.pclk2().0 * pclk_mul;
let us_pre = (freq_in + 999999) / 1000000;
let ms_pre = (freq_in + 999) / 1000;
(us_pre, ms_pre)
``` -/
def calc_pre (clocks : Clocks) : Nat × Nat :=
  let pclk_mul : Nat := if clocks.ppre2 = 1 then 1 else 2
  let freq_in : Nat := clocks.pclk2 * pclk_mul % 2 ^ 32
  let us_pre := (freq_in + 999999) % 2 ^ 32 / 1000000
  let ms_pre := (freq_in + 999) % 2 ^ 32 / 1000
  (us_pre, ms_pre)

/-- `TimerExt::delay for TIM1` (src/lib.rs lines 68-85) as a register-effect
trace. `prescaler` is a `u32`, `time` a `u16`:

```rust
let repetitions = (prescaler >> 16) + 1;
let prescaler = (prescaler & 0xffff) as u16;
self.psc.write(..);
for _ in 0..repetitions { clear uif; write cnt; set cen; wait uif; clear cen }
``` -/
def TIM1_delay (prescaler : Nat) (time : Nat) : List RegEffect :=
  let repetitions := (prescaler >>> 16) + 1
  let prescaler16 := prescaler &&& 0xffff
  RegEffect.writePsc prescaler16 ::
    (List.replicate repetitions
      [RegEffect.clearUif, RegEffect.writeCnt time, RegEffect.startCounter,
       RegEffect.waitUif, RegEffect.stopCounter]).flatten

/-- Hardware state affected by `enable`/`disable`: the two RCC registers
(modelled bitwise) and TIM1's counting-direction bit. -/
structure HwState where
  apb2enr : Nat → Bool
  apb2rstr : Nat → Bool
  dirDown : Bool

/-- Atomic bit set (`bb::set`) on a bitwise-modelled register. -/
def setRegBit (r : Nat → Bool) (i : Nat) : Nat → Bool :=
  fun j => if j = i then true else r j

/-- Atomic bit clear (`bb::clear`) on a bitwise-modelled register. -/
def clearRegBit (r : Nat → Bool) (i : Nat) : Nat → Bool :=
  fun j => if j = i then false else r j

/-- Interpretation of one register effect on the hardware state; effects not
touching `HwState` (counter, prescaler, status register) leave it unchanged. -/
def applyEffect (s : HwState) : RegEffect → HwState
  | RegEffect.setBit RccReg.apb2enr i => { s with apb2enr := setRegBit s.apb2enr i }
  | RegEffect.setBit RccReg.apb2rstr i => { s with apb2rstr := setRegBit s.apb2rstr i }
  | RegEffect.clearBit RccReg.apb2enr i => { s with apb2enr := clearRegBit s.apb2enr i }
  | RegEffect.clearBit RccReg.apb2rstr i => { s with apb2rstr := clearRegBit s.apb2rstr i }
  | RegEffect.setDirDown => { s with dirDown := true }
  | _ => s

/-- Run a register-effect trace from a hardware state. -/
def runEffects (s : HwState) (es : List RegEffect) : HwState :=
  es.foldl applyEffect s

/-- Total number of timer ticks elapsed by a delay effect trace: each
countdown pass loads the counter with some value `v` and busy-waits until it
reaches zero, elapsing `v` ticks of the prescaled clock. -/
def elapsedTicks : List RegEffect → Nat
  | [] => 0
  | RegEffect.writeCnt v :: rest => v + elapsedTicks rest
  | _ :: rest => elapsedTicks rest

/-- Recognizer for prescaler-register writes. -/
def RegEffect.isPscWrite : RegEffect → Bool
  | RegEffect.writePsc _ => true
  | _ => false

/-- Recognizer for counter-register writes (one per repetition of the
delay loop). -/
def RegEffect.isCntWrite : RegEffect → Bool
  | RegEffect.writeCnt _ => true
  | _ => false

/-- Controller-level trace events: the `TimerExt` calls made by the
`TimerDelay` methods. `delay p t` is one bounded delay (`TimerExt::delay`)
at prescaler `p` and `u16` duration `t`. -/
inductive AdapterOp where
  | enable
  | disable
  | calcPre
  | delay (prescaler : Nat) (time : Nat)
deriving DecidableEq, Repr

/-- The `TimerDelay<T>` struct (src/lib.rs lines 88-92): the owned
peripheral handle and the two cached prescalers. -/
structure TimerDelay (T : Type) where
  t : T
  us_pre : Nat
  ms_pre : Nat
deriving DecidableEq, Repr

/-- `TimerDelay::init` (src/lib.rs lines 98-104): enable the peripheral,
then compute the prescaler pair, and build the controller. Returns the
controller together with the trace of adapter calls, in order. -/
def TimerDelay.init {T : Type} (t : T) (clocks : Clocks) :
    TimerDelay T × List AdapterOp :=
  let p := calc_pre clocks
  (⟨t, p.1, p.2⟩, [AdapterOp.enable, AdapterOp.calcPre])

/-- `TimerDelay::free` (src/lib.rs lines 106-111): disable the peripheral
and return the owned handle, consuming the controller. -/
def TimerDelay.free {T : Type} (d : TimerDelay T) : T × List AdapterOp :=
  (d.t, [AdapterOp.disable])

/-- `DelayMs<u8>::delay_ms` (src/lib.rs lines 114-123):
`self.t.delay(self.ms_pre, ms as u16)`. The `as u16` cast is `% 2 ^ 16`. -/
def TimerDelay.delay_ms8 {T : Type} (d : TimerDelay T) (ms : Nat) :
    TimerDelay T × List AdapterOp :=
  (d, [AdapterOp.delay d.ms_pre (ms % 2 ^ 16)])

/-- `DelayMs<u16>::delay_ms` (src/lib.rs lines 125-134):
`self.t.delay(self.ms_pre, ms as u16)`. -/
def TimerDelay.delay_ms16 {T : Type} (d : TimerDelay T) (ms : Nat) :
    TimerDelay T × List AdapterOp :=
  (d, [AdapterOp.delay d.ms_pre (ms % 2 ^ 16)])

/-- The `while ms > 0xffff` loop body of `DelayMs<u32>::delay_ms`
(src/lib.rs lines 140-151), parameterized by the cached prescaler:
while `ms > 0xffff`, issue `delay(pre, 0xffff)` and subtract `0xffff`;
afterwards issue the final `delay(pre, ms as u16)`. -/
def delay_ms32_go (pre : Nat) (ms : Nat) : List AdapterOp :=
  if h : ms > 0xffff then
    AdapterOp.delay pre 0xffff :: delay_ms32_go pre (ms - 0xffff)
  else
    [AdapterOp.delay pre (ms % 2 ^ 16)]
termination_by ms
decreasing_by omega

/-- `DelayMs<u32>::delay_ms` (src/lib.rs lines 136-151). -/
def TimerDelay.delay_ms32 {T : Type} (d : TimerDelay T) (ms : Nat) :
    TimerDelay T × List AdapterOp :=
  (d, delay_ms32_go d.ms_pre ms)

/-- `DelayUs<u8>::delay_us` (src/lib.rs lines 153-162):
`self.t.delay(self.us_pre, us as u16)`. -/
def TimerDelay.delay_us8 {T : Type} (d : TimerDelay T) (us : Nat) :
    TimerDelay T × List AdapterOp :=
  (d, [AdapterOp.delay d.us_pre (us % 2 ^ 16)])

/-- `DelayUs<u16>::delay_us` (src/lib.rs lines 164-173):
`self.t.delay(self.us_pre, us as u16)`. -/
def TimerDelay.delay_us16 {T : Type} (d : TimerDelay T) (us : Nat) :
    TimerDelay T × List AdapterOp :=
  (d, [AdapterOp.delay d.us_pre (us % 2 ^ 16)])

/-- The `while us > 0xffff` loop of `DelayUs<u32>::delay_us`
(src/lib.rs lines 179-190), textually identical to the millisecond loop. -/
def delay_us32_go (pre : Nat) (us : Nat) : List AdapterOp :=
  if h : us > 0xffff then
    AdapterOp.delay pre 0xffff :: delay_us32_go pre (us - 0xffff)
  else
    [AdapterOp.delay pre (us % 2 ^ 16)]
termination_by us
decreasing_by omega

/-- `DelayUs<u32>::delay_us` (src/lib.rs lines 175-190). -/
def TimerDelay.delay_us32 {T : Type} (d : TimerDelay T) (us : Nat) :
    TimerDelay T × List AdapterOp :=
  (d, delay_us32_go d.us_pre us)

/-- Exact integer ceiling division, stated as in the spec: the least `k`
with `a ≤ k * b` (for `b > 0`), written as quotient plus a carry. -/
def ceil_div (a b : Nat) : Nat :=
  a / b + if a % b = 0 then 0 else 1

/-- The effective timer input frequency computed inside `calc_pre`
(`freq_in = pclk2 * pclk_mul` in `u32` arithmetic). -/
def effFreq (c : Clocks) : Nat :=
  c.pclk2 * (if c.ppre2 = 1 then 1 else 2) % 2 ^ 32

/-- The prescaler pair as a function of the effective input frequency alone
(the tail of `calc_pre` after `freq_in` is fixed). -/
def calc_pre_freq (freq_in : Nat) : Nat × Nat :=
  ((freq_in + 999999) % 2 ^ 32 / 1000000, (freq_in + 999) % 2 ^ 32 / 1000)

/-- Duration argument of a bounded-delay call (0 for lifecycle events). -/
def AdapterOp.timeOf : AdapterOp → Nat
  | AdapterOp.delay _ t => t
  | _ => 0

/-- Recognizer for prescaler recomputation events. -/
def AdapterOp.isCalcPre : AdapterOp → Bool
  | AdapterOp.calcPre => true
  | _ => false

/-- Whether an adapter event is a bounded delay at prescaler `pre`. -/
def usesPre (pre : Nat) : AdapterOp → Bool
  | AdapterOp.delay p _ => p == pre
  | _ => false

/-- Total requested ticks over a controller-level trace: the sum of the
durations of its bounded-delay calls. -/
def totalDelayTime (tr : List AdapterOp) : Nat :=
  (tr.map AdapterOp.timeOf).sum

/-! ## Helper lemmas -/

/-- The microsecond and millisecond `u32` loops are textually identical. -/
theorem delay_us32_go_eq_ms_go (pre n : Nat) :
    delay_us32_go pre n = delay_ms32_go pre n := by
  induction n using Nat.strong_induction_on with
  | _ n ih =>
    rw [delay_us32_go, delay_ms32_go]
    split
    · rename_i h
      rw [ih (n - 0xffff) (by omega)]
    · rfl

/-- Closed form of the `u32` decomposition loop: `(n - 1) / 0xffff` full-width
delays followed by one delay of the remaining ticks. -/
theorem delay_ms32_go_eq (pre n : Nat) :
    delay_ms32_go pre n =
      List.replicate ((n - 1) / 0xffff) (AdapterOp.delay pre 0xffff) ++
        [AdapterOp.delay pre (n - (n - 1) / 0xffff * 0xffff)] := by
  induction n using Nat.strong_induction_on with
  | _ n ih =>
    rw [delay_ms32_go]
    split
    · rename_i h
      rw [ih (n - 0xffff) (by omega)]
      have hb : (n - 1) / 0xffff = (n - 0xffff - 1) / 0xffff + 1 := by omega
      rw [hb, List.replicate_succ, List.cons_append]
      have hr : n - 0xffff - (n - 0xffff - 1) / 0xffff * 0xffff
          = n - ((n - 0xffff - 1) / 0xffff + 1) * 0xffff := by omega
      rw [hr]
    · rename_i h
      have h1 : (n - 1) / 0xffff = 0 := by omega
      have h2 : n % 2 ^ 16 = n := Nat.mod_eq_of_lt (by omega)
      rw [h1, h2]
      simp

/-- When the requested value already fits in 16 bits, the `u32` loop body is
skipped and only the trailing bounded delay is issued. -/
theorem delay_ms32_go_small (pre m : Nat) (hm : m ≤ 0xffff) :
    delay_ms32_go pre m = [AdapterOp.delay pre (m % 2 ^ 16)] := by
  rw [delay_ms32_go]
  rw [dif_neg (by omega)]

/-- `elapsedTicks` distributes over concatenation. -/
theorem elapsedTicks_append (a b : List RegEffect) :
    elapsedTicks (a ++ b) = elapsedTicks a + elapsedTicks b := by
  induction a with
  | nil => simp [elapsedTicks]
  | cons x rest ih => cases x <;> simp [elapsedTicks, ih] <;> omega

/-- Each repetition of the delay-loop body elapses exactly `t` ticks. -/
theorem elapsedTicks_flatten_replicate (n t : Nat) :
    elapsedTicks ((List.replicate n
      [RegEffect.clearUif, RegEffect.writeCnt t, RegEffect.startCounter,
       RegEffect.waitUif, RegEffect.stopCounter]).flatten) = n * t := by
  induction n with
  | zero => simp [elapsedTicks]
  | succ k ih =>
    rw [List.replicate_succ, List.flatten_cons, elapsedTicks_append, ih]
    simp [elapsedTicks]
    ring

/-- Sum of a constant list. -/
theorem sum_replicate_nat (k x : Nat) : (List.replicate k x).sum = k * x := by
  induction k with
  | zero => simp
  | succ m ih =>
    rw [List.replicate_succ]
    simp [ih, Nat.succ_mul]
    ring

/-- Rust's `(a + 999999) / 1000000` is exact ceiling division by `10 ^ 6`
(absent overflow). -/
theorem add_999999_div (a : Nat) : (a + 999999) / 1000000 = ceil_div a 1000000 := by
  unfold ceil_div
  split <;> omega

/-- Rust's `(a + 999) / 1000` is exact ceiling division by `1000`
(absent overflow). -/
theorem add_999_div (a : Nat) : (a + 999) / 1000 = ceil_div a 1000 := by
  unfold ceil_div
  split <;> omega

/-- `calc_pre` is the composition of the effective-frequency computation and
the per-frequency prescaler computation. -/
theorem calc_pre_eq_freq (c : Clocks) : calc_pre c = calc_pre_freq (effFreq c) := rfl

/-- The `u32` loop never recomputes prescalers. -/
theorem delay_ms32_go_countP_calcPre (pre n : Nat) :
    (delay_ms32_go pre n).countP AdapterOp.isCalcPre = 0 := by
  rw [delay_ms32_go_eq, List.countP_append, List.countP_replicate]
  simp [AdapterOp.isCalcPre, List.countP_cons]

/-- Total requested ticks of the `u32` loop trace equal the request. -/
theorem totalDelayTime_go (pre n : Nat) :
    totalDelayTime (delay_ms32_go pre n) = n := by
  rw [delay_ms32_go_eq]
  unfold totalDelayTime
  simp [List.map_append, List.map_replicate, AdapterOp.timeOf, sum_replicate_nat]
  omega

/-- Number of bounded delays issued by the `u32` loop. -/
theorem length_go (pre n : Nat) :
    (delay_ms32_go pre n).length = (n - 1) / 0xffff + 1 := by
  rw [delay_ms32_go_eq]
  simp

/-- Every bounded delay issued by the `u32` loop uses the given prescaler. -/
theorem all_go (pre n : Nat) :
    (delay_ms32_go pre n).all (usesPre pre) = true := by
  rw [delay_ms32_go_eq]
  simp [List.all_append, List.all_replicate, usesPre]

/-- Concrete evaluation of the `u32` loop at 70000. -/
theorem go_70000 (pre : Nat) :
    delay_ms32_go pre 70000 =
      [AdapterOp.delay pre 0xffff, AdapterOp.delay pre 4465] := by
  rw [delay_ms32_go]
  norm_num
  rw [delay_ms32_go]
  norm_num

/-! ## Claim theorems -/

/-- Claim C1: for every 32-bit input `n`, `delay_ms(n)` (and likewise
`delay_us(n)`) issues, while `n > 0xffff`, one bounded delay of exactly
`0xffff` ticks at the cached `ms_pre` (resp. `us_pre`) prescaler and subtracts
`0xffff`, and after the loop issues exactly one final bounded delay of the
remaining value — which is at most `0xffff` and may be `0`; in particular
`delay_ms 0` issues exactly one bounded delay of duration `0`. The trace is
exactly `(n - 1) / 0xffff` full-width delays (one per loop iteration) followed
by the single final delay of the remainder. -/
theorem claim_C1_delay_u32_loop {T : Type} (d : TimerDelay T) (n : Nat)
    (hn : n < 2 ^ 32) :
    (d.delay_ms32 n).2 =
      List.replicate ((n - 1) / 0xffff) (AdapterOp.delay d.ms_pre 0xffff) ++
        [AdapterOp.delay d.ms_pre (n - (n - 1) / 0xffff * 0xffff)] ∧
    (d.delay_us32 n).2 =
      List.replicate ((n - 1) / 0xffff) (AdapterOp.delay d.us_pre 0xffff) ++
        [AdapterOp.delay d.us_pre (n - (n - 1) / 0xffff * 0xffff)] ∧
    n - (n - 1) / 0xffff * 0xffff ≤ 0xffff ∧
    (n > 0xffff → 1 ≤ (n - 1) / 0xffff) ∧
    (d.delay_ms32 0).2 = [AdapterOp.delay d.ms_pre 0] := by
  refine ⟨delay_ms32_go_eq d.ms_pre n, ?_, by omega, by omega, ?_⟩
  · show delay_us32_go d.us_pre n = _
    rw [delay_us32_go_eq_ms_go]
    exact delay_ms32_go_eq d.us_pre n
  · show delay_ms32_go d.ms_pre 0 = _
    rw [delay_ms32_go_small d.ms_pre 0 (by omega)]
    norm_num

/-- Witness for C1 at `n = 70000`. -/
theorem claim_C1_witness :
    (70000 : Nat) < 2 ^ 32 ∧
      ((⟨(), 84, 84000⟩ : TimerDelay Unit).delay_ms32 70000).2 =
        List.replicate ((70000 - 1) / 0xffff) (AdapterOp.delay 84000 0xffff) ++
          [AdapterOp.delay 84000 (70000 - (70000 - 1) / 0xffff * 0xffff)] :=
  ⟨by norm_num,
   (claim_C1_delay_u32_loop (⟨(), 84, 84000⟩ : TimerDelay Unit) 70000
     (by norm_num)).1⟩

/-- Claim C2 counterexample: the claim quantifies over every `u32` `freq_in`,
but at `freq_in = 0xFFFFFFFF` (ppre2 = 1, pclk2 = 0xFFFFFFFF) the `u32`
additions `freq_in + 999999` and `freq_in + 999` wrap, so `calc_pre` returns
`(0, 0)` although the exact ceilings are `4295` and `4294968`. -/
theorem claim_C2_counterexample :
    effFreq ⟨1, 4294967295⟩ = 4294967295 ∧
    calc_pre ⟨1, 4294967295⟩ = (0, 0) ∧
    ceil_div 4294967295 1000000 = 4295 ∧
    ceil_div 4294967295 1000 = 4294968 ∧
    (0 : Nat) ≠ 4295 := by
  refine ⟨by decide, by decide, by decide, by decide, by decide⟩

/-- Claim C2 (amended): for every clock configuration whose effective input
frequency `freq_in` does not overflow the rounding addition, `calc_pre`
returns `us_pre = ceil(freq_in / 1000000)` and `ms_pre = ceil(freq_in /
1000)`; in particular `freq_in = 48000001` yields `us_pre = 49`. -/
theorem claim_C2_amended_ceiling (c : Clocks) :
    (effFreq c + 999999 < 2 ^ 32 →
      (calc_pre c).1 = ceil_div (effFreq c) 1000000) ∧
    (effFreq c + 999 < 2 ^ 32 →
      (calc_pre c).2 = ceil_div (effFreq c) 1000) ∧
    (effFreq c = 48000001 → (calc_pre c).1 = 49) := by
  rw [calc_pre_eq_freq]
  refine ⟨?_, ?_, ?_⟩
  · intro h
    show (effFreq c + 999999) % 2 ^ 32 / 1000000 = _
    rw [Nat.mod_eq_of_lt h, add_999999_div]
  · intro h
    show (effFreq c + 999) % 2 ^ 32 / 1000 = _
    rw [Nat.mod_eq_of_lt h, add_999_div]
  · intro h
    rw [h]
    decide

/-- Witness for C2 at the 48 MHz + 1 Hz scenario. -/
theorem claim_C2_witness :
    effFreq ⟨1, 48000001⟩ + 999999 < 2 ^ 32 ∧
    (calc_pre ⟨1, 48000001⟩).1 = ceil_div (effFreq ⟨1, 48000001⟩) 1000000 ∧
    (calc_pre ⟨1, 48000001⟩).1 = 49 :=
  ⟨by decide,
   (claim_C2_amended_ceiling ⟨1, 48000001⟩).1 (by decide),
   (claim_C2_amended_ceiling ⟨1, 48000001⟩).2.2 (by decide)⟩

/-- Claim C3 counterexample: with the bus prescaler exceeding 1 (the claim's
"already halved" case, `ppre2 = 2`) and an 84 MHz peripheral clock, the code
multiplies by 2, yielding `us_pre = 168` and `ms_pre = 168000` — not the
claimed `84` and `84000`. The source maps `ppre2 == 1` to multiplier 1 and
`ppre2 != 1` to multiplier 2, the opposite of the claim. -/
theorem claim_C3_counterexample :
    (calc_pre ⟨2, 84000000⟩).1 = 168 ∧
    (calc_pre ⟨2, 84000000⟩).2 = 168000 ∧
    (168 : Nat) ≠ 84 ∧ (168000 : Nat) ≠ 84000 := by
  refine ⟨by decide, by decide, by decide, by decide⟩

/-- Claim C3 (amended): `calc_pre` multiplies the peripheral clock frequency
by 1 when the bus prescaler equals 1 and by 2 when it differs from 1 (the
already-halved case); an 84 MHz peripheral clock with bus prescaler 1 yields
`freq_in = 84000000`, `us_pre = 84`, `ms_pre = 84000`, and with bus prescaler
2 yields `freq_in = 168000000`, `us_pre = 168`, `ms_pre = 168000`. -/
theorem claim_C3_amended_multiplier (c : Clocks) :
    calc_pre c = calc_pre_freq (effFreq c) ∧
    (c.ppre2 = 1 → effFreq c = c.pclk2 * 1 % 2 ^ 32) ∧
    (c.ppre2 ≠ 1 → effFreq c = c.pclk2 * 2 % 2 ^ 32) ∧
    effFreq ⟨1, 84000000⟩ = 84000000 ∧
    calc_pre ⟨1, 84000000⟩ = (84, 84000) ∧
    effFreq ⟨2, 84000000⟩ = 168000000 ∧
    calc_pre ⟨2, 84000000⟩ = (168, 168000) := by
  refine ⟨calc_pre_eq_freq c, ?_, ?_, by decide, by decide, by decide, by decide⟩
  · intro h
    unfold effFreq
    rw [if_pos h]
  · intro h
    unfold effFreq
    rw [if_neg h]

/-- Witness for C3 at both multiplier branches. -/
theorem claim_C3_witness :
    effFreq ⟨1, 84000000⟩ = 84000000 * 1 % 2 ^ 32 ∧
    effFreq ⟨2, 84000000⟩ = 84000000 * 2 % 2 ^ 32 :=
  ⟨(claim_C3_amended_multiplier ⟨1, 84000000⟩).2.1 rfl,
   (claim_C3_amended_multiplier ⟨2, 84000000⟩).2.2.1 (by decide)⟩

/-- Claim C4: for every `u32` prescaler and `u16` duration, `TimerExt::delay`
writes the prescaler register exactly once with `prescaler & 0xffff`
(that is, `prescaler % 2 ^ 16`), then performs exactly
`(prescaler >> 16) + 1 = prescaler / 2 ^ 16 + 1` repetitions of
clear-update-flag, load-counter, start, busy-wait, stop, so the total elapsed
ticks equal repetitions times the duration. -/
theorem claim_C4_adapter_delay (p t : Nat) (hp : p < 2 ^ 32) (ht : t < 2 ^ 16) :
    TIM1_delay p t =
      RegEffect.writePsc (p % 2 ^ 16) ::
        (List.replicate (p / 2 ^ 16 + 1)
          [RegEffect.clearUif, RegEffect.writeCnt t, RegEffect.startCounter,
           RegEffect.waitUif, RegEffect.stopCounter]).flatten ∧
    (TIM1_delay p t).countP RegEffect.isPscWrite = 1 ∧
    (TIM1_delay p t).countP RegEffect.isCntWrite = p / 2 ^ 16 + 1 ∧
    elapsedTicks (TIM1_delay p t) = (p / 2 ^ 16 + 1) * t := by
  have hshape : TIM1_delay p t =
      RegEffect.writePsc (p % 2 ^ 16) ::
        (List.replicate (p / 2 ^ 16 + 1)
          [RegEffect.clearUif, RegEffect.writeCnt t, RegEffect.startCounter,
           RegEffect.waitUif, RegEffect.stopCounter]).flatten := by
    unfold TIM1_delay
    rw [Nat.shiftRight_eq_div_pow]
    rw [show (0xffff : Nat) = 2 ^ 16 - 1 from by norm_num]
    rw [Nat.and_pow_two_sub_one_eq_mod]
  refine ⟨hshape, ?_, ?_, ?_⟩
  · rw [hshape, List.countP_cons, List.countP_flatten]
    simp [List.countP_cons, RegEffect.isPscWrite, sum_replicate_nat]
  · rw [hshape, List.countP_cons, List.countP_flatten]
    simp [List.countP_cons, RegEffect.isCntWrite, sum_replicate_nat]
  · rw [hshape]
    show elapsedTicks (RegEffect.writePsc (p % 2 ^ 16) :: _) = _
    rw [show ∀ rest, elapsedTicks (RegEffect.writePsc (p % 2 ^ 16) :: rest)
        = elapsedTicks rest from fun rest => rfl]
    exact elapsedTicks_flatten_replicate _ t

/-- Witness for C4 at a prescaler exceeding 16 bits. -/
theorem claim_C4_witness :
    (70000000 : Nat) < 2 ^ 32 ∧ (1000 : Nat) < 2 ^ 16 ∧
    elapsedTicks (TIM1_delay 70000000 1000) = (70000000 / 2 ^ 16 + 1) * 1000 :=
  ⟨by norm_num, by norm_num,
   (claim_C4_adapter_delay 70000000 1000 (by norm_num) (by norm_num)).2.2.2⟩

/-- Claim C5: for every 32-bit request `n`, the `u32` decomposition issues a
trace whose total requested ticks equal `n` — i.e. `floor(n / 0xffff)`
full-width delays plus a remainder `n % 0xffff` in total — whose length is
`ceil(n / 0xffff)` bounded-delay invocations (1 when `n = 0`), all at the
cached prescaler; in particular `delay_ms(70000)` issues exactly the two
bounded delays `0xffff` then `4465`, both at `ms_pre`. -/
theorem claim_C5_decomposition_totals {T : Type} (d : TimerDelay T) (n : Nat)
    (hn : n < 2 ^ 32) :
    totalDelayTime (d.delay_ms32 n).2 = n ∧
    totalDelayTime (d.delay_us32 n).2 = n ∧
    totalDelayTime (d.delay_ms32 n).2 = n / 0xffff * 0xffff + n % 0xffff ∧
    (d.delay_ms32 n).2.length = (if n = 0 then 1 else ceil_div n 0xffff) ∧
    (d.delay_us32 n).2.length = (if n = 0 then 1 else ceil_div n 0xffff) ∧
    (d.delay_ms32 n).2.all (usesPre d.ms_pre) = true ∧
    (d.delay_us32 n).2.all (usesPre d.us_pre) = true ∧
    (d.delay_ms32 70000).2 =
      [AdapterOp.delay d.ms_pre 0xffff, AdapterOp.delay d.ms_pre 4465] := by
  have hus : ∀ k : Nat, (d.delay_us32 k).2 = delay_ms32_go d.us_pre k :=
    fun k => delay_us32_go_eq_ms_go d.us_pre k
  have hlen : ∀ pre : Nat, (delay_ms32_go pre n).length
      = (if n = 0 then 1 else ceil_div n 0xffff) := by
    intro pre
    rw [length_go]
    by_cases h0 : n = 0
    · simp [h0]
    · rw [if_neg h0]
      unfold ceil_div
      by_cases hm : n % 0xffff = 0
      · rw [if_pos hm]
        omega
      · rw [if_neg hm]
        omega
  refine ⟨totalDelayTime_go d.ms_pre n, ?_, ?_, hlen d.ms_pre, ?_, all_go d.ms_pre n,
    ?_, go_70000 d.ms_pre⟩
  · rw [hus]
    exact totalDelayTime_go d.us_pre n
  · show totalDelayTime (delay_ms32_go d.ms_pre n) = _
    rw [totalDelayTime_go d.ms_pre n]
    omega
  · rw [hus]
    exact hlen d.us_pre
  · rw [hus]
    exact all_go d.us_pre n

/-- Witness for C5 at the `delay_ms(70000)` scenario. -/
theorem claim_C5_witness :
    (70000 : Nat) < 2 ^ 32 ∧
    totalDelayTime ((⟨(), 84, 84000⟩ : TimerDelay Unit).delay_ms32 70000).2
      = 70000 ∧
    ((⟨(), 84, 84000⟩ : TimerDelay Unit).delay_ms32 70000).2 =
      [AdapterOp.delay 84000 0xffff, AdapterOp.delay 84000 4465] :=
  ⟨by norm_num,
   (claim_C5_decomposition_totals (⟨(), 84, 84000⟩ : TimerDelay Unit) 70000
     (by norm_num)).1,
   (claim_C5_decomposition_totals (⟨(), 84, 84000⟩ : TimerDelay Unit) 70000
     (by norm_num)).2.2.2.2.2.2.2⟩

/-- Claim C6: for every 8-bit or 16-bit input, `delay_ms` issues exactly one
bounded delay at the cached `ms_pre` with the given duration, and `delay_us`
exactly one bounded delay at the cached `us_pre`; no decomposition occurs. -/
theorem claim_C6_narrow_widths {T : Type} (d : TimerDelay T) (n m : Nat)
    (hn : n < 2 ^ 8) (hm : m < 2 ^ 16) :
    (d.delay_ms8 n).2 = [AdapterOp.delay d.ms_pre n] ∧
    (d.delay_us8 n).2 = [AdapterOp.delay d.us_pre n] ∧
    (d.delay_ms16 m).2 = [AdapterOp.delay d.ms_pre m] ∧
    (d.delay_us16 m).2 = [AdapterOp.delay d.us_pre m] := by
  have hn16 : n % 2 ^ 16 = n := Nat.mod_eq_of_lt (by omega)
  have hm16 : m % 2 ^ 16 = m := Nat.mod_eq_of_lt hm
  refine ⟨?_, ?_, ?_, ?_⟩ <;>
    simp [TimerDelay.delay_ms8, TimerDelay.delay_us8, TimerDelay.delay_ms16,
      TimerDelay.delay_us16, hn16, hm16, Nat.mod_eq_of_lt] <;> omega

/-- Witness for C6 at `n = 200`, `m = 60000`. -/
theorem claim_C6_witness :
    (200 : Nat) < 2 ^ 8 ∧ (60000 : Nat) < 2 ^ 16 ∧
    ((⟨(), 84, 84000⟩ : TimerDelay Unit).delay_ms8 200).2
      = [AdapterOp.delay 84000 200] ∧
    ((⟨(), 84, 84000⟩ : TimerDelay Unit).delay_us16 60000).2
      = [AdapterOp.delay 84 60000] :=
  ⟨by norm_num, by norm_num,
   (claim_C6_narrow_widths (⟨(), 84, 84000⟩ : TimerDelay Unit) 200 60000
     (by norm_num) (by norm_num)).1,
   (claim_C6_narrow_widths (⟨(), 84, 84000⟩ : TimerDelay Unit) 200 60000
     (by norm_num) (by norm_num)).2.2.2⟩

/-- Claim C7: `free` on the controller built by `init(t, c)` returns the
identical peripheral handle `t`; its trace is exactly one `disable` call
(invoked before the handle is returned, being the whole trace); and `init`'s
trace is `enable` followed by the prescaler computation, so `enable` precedes
`calc_pre`. -/
theorem claim_C7_init_free_roundtrip {T : Type} (t : T) (clocks : Clocks) :
    (TimerDelay.free (TimerDelay.init t clocks).1).1 = t ∧
    (TimerDelay.free (TimerDelay.init t clocks).1).2 = [AdapterOp.disable] ∧
    (TimerDelay.free (TimerDelay.init t clocks).1).2.countP
      (fun op => op == AdapterOp.disable) = 1 ∧
    (TimerDelay.init t clocks).2 = [AdapterOp.enable, AdapterOp.calcPre] := by
  refine ⟨rfl, rfl, ?_, rfl⟩
  simp [TimerDelay.free, List.countP_cons]

/-- Claim C8: `enable` performs, in order, set clock-enable bit, set reset
bit, clear reset bit, configure down-counting; `disable` performs, in order,
set reset bit, clear reset bit, clear clock-enable bit. Interpreted over the
register state: after `enable` the clock-enable bit is set, the reset bit is
back to 0 and the direction is down, with the reset bit high after the first
two effects (the pulse); after `disable` both the reset and clock-enable bits
are 0, with the reset bit high after the first effect. -/
theorem claim_C8_enable_disable_sequence (s : HwState) :
    TIM1_enable =
      [RegEffect.setBit RccReg.apb2enr 0, RegEffect.setBit RccReg.apb2rstr 0,
       RegEffect.clearBit RccReg.apb2rstr 0, RegEffect.setDirDown] ∧
    (runEffects s TIM1_enable).apb2enr 0 = true ∧
    (runEffects s TIM1_enable).apb2rstr 0 = false ∧
    (runEffects s TIM1_enable).dirDown = true ∧
    (runEffects s (TIM1_enable.take 2)).apb2rstr 0 = true ∧
    TIM1_disable =
      [RegEffect.setBit RccReg.apb2rstr 0, RegEffect.clearBit RccReg.apb2rstr 0,
       RegEffect.clearBit RccReg.apb2enr 0] ∧
    (runEffects s TIM1_disable).apb2enr 0 = false ∧
    (runEffects s TIM1_disable).apb2rstr 0 = false ∧
    (runEffects s (TIM1_disable.take 1)).apb2rstr 0 = true := by
  refine ⟨rfl, ?_, ?_, ?_, ?_, rfl, ?_, ?_, ?_⟩ <;>
    simp [TIM1_enable, TIM1_disable, runEffects, applyEffect, setRegBit,
      clearRegBit]

/-- Claim C9: the prescaler pair is computed exactly once, at construction
(`init` stores exactly `calc_pre clocks` and its trace recomputes once);
every delay operation at every width returns the controller with `us_pre`
and `ms_pre` unchanged and never issues a prescaler recomputation. -/
theorem claim_C9_prescalers_frozen {T : Type} (t : T) (clocks : Clocks)
    (d : TimerDelay T) (n : Nat) :
    ((TimerDelay.init t clocks).1.us_pre, (TimerDelay.init t clocks).1.ms_pre)
      = calc_pre clocks ∧
    (TimerDelay.init t clocks).1.t = t ∧
    (TimerDelay.init t clocks).2.countP AdapterOp.isCalcPre = 1 ∧
    (d.delay_ms8 n).1 = d ∧ (d.delay_ms16 n).1 = d ∧ (d.delay_ms32 n).1 = d ∧
    (d.delay_us8 n).1 = d ∧ (d.delay_us16 n).1 = d ∧ (d.delay_us32 n).1 = d ∧
    (d.delay_ms8 n).2.countP AdapterOp.isCalcPre = 0 ∧
    (d.delay_ms16 n).2.countP AdapterOp.isCalcPre = 0 ∧
    (d.delay_ms32 n).2.countP AdapterOp.isCalcPre = 0 ∧
    (d.delay_us8 n).2.countP AdapterOp.isCalcPre = 0 ∧
    (d.delay_us16 n).2.countP AdapterOp.isCalcPre = 0 ∧
    (d.delay_us32 n).2.countP AdapterOp.isCalcPre = 0 := by
  refine ⟨rfl, rfl, ?_, rfl, rfl, rfl, rfl, rfl, rfl, ?_, ?_, ?_, ?_, ?_, ?_⟩
  · simp [TimerDelay.init, List.countP_cons, AdapterOp.isCalcPre]
  · simp [TimerDelay.delay_ms8, List.countP_cons, AdapterOp.isCalcPre]
  · simp [TimerDelay.delay_ms16, List.countP_cons, AdapterOp.isCalcPre]
  · exact delay_ms32_go_countP_calcPre d.ms_pre n
  · simp [TimerDelay.delay_us8, List.countP_cons, AdapterOp.isCalcPre]
  · simp [TimerDelay.delay_us16, List.countP_cons, AdapterOp.isCalcPre]
  · show (delay_us32_go d.us_pre n).countP AdapterOp.isCalcPre = 0
    rw [delay_us32_go_eq_ms_go]
    exact delay_ms32_go_countP_calcPre d.us_pre n

/-- Claim C10: the integer-width overloads are coherent — for `u8`-ranged
values the three `delay_ms` overloads issue identical adapter call sequences,
for `u16`-ranged values the 16- and 32-bit overloads coincide, and likewise
for `delay_us`. -/
theorem claim_C10_width_coherence {T : Type} (d : TimerDelay T) (n m : Nat)
    (hn : n < 2 ^ 8) (hm : m < 2 ^ 16) :
    (d.delay_ms8 n).2 = (d.delay_ms16 n).2 ∧
    (d.delay_ms8 n).2 = (d.delay_ms32 n).2 ∧
    (d.delay_ms16 m).2 = (d.delay_ms32 m).2 ∧
    (d.delay_us8 n).2 = (d.delay_us16 n).2 ∧
    (d.delay_us8 n).2 = (d.delay_us32 n).2 ∧
    (d.delay_us16 m).2 = (d.delay_us32 m).2 := by
  have hms32 : ∀ k : Nat, k < 2 ^ 16 →
      (d.delay_ms32 k).2 = [AdapterOp.delay d.ms_pre (k % 2 ^ 16)] := by
    intro k hk
    show delay_ms32_go d.ms_pre k = _
    exact delay_ms32_go_small d.ms_pre k (by omega)
  have hus32 : ∀ k : Nat, k < 2 ^ 16 →
      (d.delay_us32 k).2 = [AdapterOp.delay d.us_pre (k % 2 ^ 16)] := by
    intro k hk
    show delay_us32_go d.us_pre k = _
    rw [delay_us32_go_eq_ms_go]
    exact delay_ms32_go_small d.us_pre k (by omega)
  refine ⟨rfl, ?_, ?_, rfl, ?_, ?_⟩
  · rw [hms32 n (by omega)]
    rfl
  · rw [hms32 m hm]
    rfl
  · rw [hus32 n (by omega)]
    rfl
  · rw [hus32 m hm]
    rfl

/-- Witness for C10 at `n = 200`, `m = 60000`. -/
theorem claim_C10_witness :
    (200 : Nat) < 2 ^ 8 ∧ (60000 : Nat) < 2 ^ 16 ∧
    ((⟨(), 84, 84000⟩ : TimerDelay Unit).delay_ms8 200).2
      = ((⟨(), 84, 84000⟩ : TimerDelay Unit).delay_ms32 200).2 ∧
    ((⟨(), 84, 84000⟩ : TimerDelay Unit).delay_us16 60000).2
      = ((⟨(), 84, 84000⟩ : TimerDelay Unit).delay_us32 60000).2 :=
  ⟨by norm_num, by norm_num,
   (claim_C10_width_coherence (⟨(), 84, 84000⟩ : TimerDelay Unit) 200 60000
     (by norm_num) (by norm_num)).2.1,
   (claim_C10_width_coherence (⟨(), 84, 84000⟩ : TimerDelay Unit) 200 60000
     (by norm_num) (by norm_num)).2.2.2.2.2⟩
